import Mathlib

/-!
# Verification of the Bidding simulation core

Shallow embedding of the bidding/pacing simulation engine:

* `runMultiDaySimulation` — the multi-day pacing controller of
  `src/unnamed/part_010` (the most elaborated variant, with ROI-pacing (RP)
  and budget-pacing (BP) modules and per-interval arbitration);
* `runSimulation` — the single-window (four 6-hour windows) auction
  simulator of `src/src/lib/simulation.ts`;
* `getAdjustedPCVR` — the conversion-rate estimator of
  `src/src/app/actions.ts`.

JavaScript numbers are embedded as `ℚ` (the source's arithmetic is exact on
the rationals it manipulates; `Math.floor` becomes `Int.floor`).  The two
impure inputs of the simulators — the estimator responses (an `async` call)
and the `Math.random()` draws feeding `randomInRange` — are supplied
explicitly through an `Env` record of input streams, so every simulator run
is a pure function of its parameters and its environment.  The estimator
itself (which contains the one transcendental operation, `Math.log`) is
embedded separately over `ℝ` as a function of its explicit random draw.
-/

/-- Bids above this are highly competitive (`COMPETITOR_HIGH_BID_THRESHOLD`). -/
def competitorHighBidThreshold : ℚ := 2

/-- Bids below this are not competitive (`COMPETITOR_LOW_BID_THRESHOLD`). -/
def competitorLowBidThreshold : ℚ := 8/10

/-- Below this bid, clicks are 0 (`BID_THROTTLE_THRESHOLD`). -/
def bidThrottleThreshold : ℚ := 4/100

/-- Max potential clicks for a top bid at peak time (`HIGH_CLICKS_PER_HOUR`). -/
def highClicksPerHour : ℚ := 200

/-- Hourly potential mapped to each 30-minute interval of a day
(`clickPotentialByInterval` of `src/unnamed/part_010`, 48 entries). -/
def clickPotentialByInterval : List ℚ :=
  [0.31, 0.31, 0.18, 0.18, 0.09, 0.09, 0.07, 0.07, 0.10, 0.10, 0.24, 0.24,
   0.41, 0.41, 0.54, 0.54, 0.66, 0.66, 0.78, 0.78, 0.83, 0.83, 0.87, 0.87,
   0.97, 0.97, 1.00, 1.00, 0.98, 0.98, 0.87, 0.87, 0.87, 0.87, 0.89, 0.89,
   0.85, 0.85, 0.78, 0.78, 0.70, 0.70, 0.62, 0.62, 0.45, 0.45, 0.35, 0.35]

/-- Ideal budget-utilisation plan over the 48 intraday intervals
(`BU_IDEAL_PLAN` of `src/unnamed/part_010`). -/
def buIdealPlan : List ℚ :=
  [0.00, 0.01, 0.01, 0.02, 0.02, 0.02, 0.03, 0.03, 0.03, 0.03, 0.04, 0.05,
   0.06, 0.08, 0.10, 0.13, 0.16, 0.19, 0.23, 0.27, 0.31, 0.35, 0.40, 0.45,
   0.50, 0.55, 0.60, 0.65, 0.70, 0.75, 0.80, 0.84, 0.88, 0.91, 0.94, 0.96,
   0.98, 0.99, 0.99, 1.00, 1.00, 1.00, 1.00, 1.00, 1.00, 1.00, 1.00, 1.00]

/-- Per-window click potential used by the single-window simulator
(`clickPotentialByWindow` of `src/src/lib/simulation.ts`). -/
def clickPotentialByWindow : List ℚ := [0.4, 1.0, 0.9, 0.7]

/-- The helper `randomInRange(min, max) = Math.random() * (max - min) + min`,
with the `Math.random()` draw `r` made explicit. -/
def randomInRange {α : Type} [Mul α] [Add α] [Sub α] (lo hi r : α) : α :=
  r * (hi - lo) + lo

/-- The three-segment bid → click-attainment curve shared by both simulators
(the body of the `if bid < LOW / bid > HIGH / else` cascade).  Callers gate it
behind `bid ≥ BID_THROTTLE_THRESHOLD` (and budget availability). -/
def clickAttainmentFactor (bid : ℚ) : ℚ :=
  if bid < competitorLowBidThreshold then
    ((bid - bidThrottleThreshold) /
      (competitorLowBidThreshold - bidThrottleThreshold))^2 * (1/2)
  else if competitorHighBidThreshold < bid then 1
  else 1/2 + ((bid - competitorLowBidThreshold) /
      (competitorHighBidThreshold - competitorLowBidThreshold)) * (1/2)

/-- One rolling-history record `{spend, gmv, clicks, orders}`. -/
structure HistEntry where
  spend : ℚ
  gmv : ℚ
  clicks : ℚ
  orders : ℚ
deriving DecidableEq

/-- Total clicks of a rolling history (the `reduce` over `clicks`). -/
def histClicks (l : List HistEntry) : ℚ := (l.map HistEntry.clicks).sum

/-- Total spend of a rolling history (the `reduce` over `spend`). -/
def histSpend (l : List HistEntry) : ℚ := (l.map HistEntry.spend).sum

/-- Total gmv of a rolling history (the `reduce` over `gmv`). -/
def histGmv (l : List HistEntry) : ℚ := (l.map HistEntry.gmv).sum

/-- Proportional scaling of the straddling entry in the rolling-window trim:
spend/gmv/clicks are multiplied by `fractionToKeep`, orders additionally pass
through `Math.floor`. -/
def scaleEntry (f : ℚ) (e : HistEntry) : HistEntry :=
  ⟨e.spend * f, e.gmv * f, e.clicks * f, ((⌊e.orders * f⌋ : ℤ) : ℚ)⟩

/-- The rolling-window walk of the trim loop, on the reversed history
(most recent first).  `acc` is `rollingClicks`.  An entry fitting inside the
window is kept whole; the straddling entry is scaled by
`(nValue - rollingClicks) / hist.clicks` and the walk stops (`break`),
dropping everything older. -/
def trimGo (n : ℚ) : ℚ → List HistEntry → List HistEntry
  | _, [] => []
  | acc, h :: rest =>
    if acc + h.clicks ≤ n then h :: trimGo n (acc + h.clicks) rest
    else [scaleEntry ((n - acc) / h.clicks) h]

/-- The rolling-window trim executed at the end of every interval
(`for (let j = recentHistory.length - 1; j >= 0; j--) ...` with `unshift`):
walk from the most recent entry backwards, keep at most `n` clicks. -/
def trimHistory (n : ℚ) (l : List HistEntry) : List HistEntry :=
  (trimGo n 0 l.reverse).reverse

/-- `MultiDaySimulationParams` of the multi-day simulator.  `modules` (a list
of the string tags `'rp'` / `'bp'`) is embedded as the two membership tests
the source performs on it. -/
structure MDParams where
  slRoi : ℚ
  initialTargetRoi : ℚ
  pacingP : ℚ
  pacingI : ℚ
  pacingD : ℚ
  bpP : ℚ
  dailyBudget : ℚ
  numDays : ℕ
  initialDeliveredRoi : ℚ
  aov : ℚ
  nValue : ℚ
  kValue : ℚ
  bpKValue : ℚ
  basePCVR : ℚ
  calibrationError : ℚ
  useRP : Bool
  useBP : Bool

/-- Input streams of a simulator run: `warmupPcvr` is the estimator response
of the warm-up call; `pcvr i` the estimator response consumed at interval
(resp. window) `i`; `rand1 i` and `rand2 i` the `Math.random()` draws of the
click-jitter and conversion-jitter calls of `randomInRange`. -/
structure Env where
  warmupPcvr : ℚ
  pcvr : ℕ → ℚ
  rand1 : ℕ → ℚ
  rand2 : ℕ → ℚ

/-- The mutable loop state of `runMultiDaySimulation`.  The per-day cumulative
fields stand for the `dayCumulative*` fields of `lastIntervals[i-1]`, which
the loop reads back at the start of the next interval (and ignores at a day
boundary). -/
structure MDState where
  recentHistory : List HistEntry
  clicksSinceLastRpUpdate : ℚ
  clicksSinceLastBpUpdate : ℚ
  currentTargetRoi : ℚ
  deliveredRoi : ℚ
  integralError : ℚ
  previousError : ℚ
  orderCarryOver : ℚ
  dayCumulativeSpend : ℚ
  dayCumulativeGmv : ℚ
  dayCumulativeClicks : ℚ

/-- The `activeModule` tag `'RP' | 'BP' | 'None'`. -/
inductive ActiveModule where
  | RP
  | BP
  | NoneActive
deriving DecidableEq

/-- `TimeIntervalResult` (the `label` string is omitted; it is a formatting
artefact of `day`/`hour`). -/
structure IntervalResult where
  timestamp : ℕ
  day : ℕ
  hour : ℕ
  targetROI : ℚ
  deliveredROI : ℚ
  dayROI : ℚ
  slRoi : ℚ
  clicks : ℚ
  orders : ℚ
  gmv : ℚ
  spend : ℚ
  avgBid : ℚ
  pCvr : ℚ
  dayCumulativeClicks : ℚ
  dayCumulativeGmv : ℚ
  dayCumulativeSpend : ℚ
  dayBudgetUtilisation : ℚ
  idealBudgetUtilisation : ℚ
  activeModule : ActiveModule

/-- The ROI-pacing error `(slRoi - deliveredRoi) / slRoi`. -/
def rpError (p : MDParams) (s : MDState) : ℚ :=
  (p.slRoi - s.deliveredRoi) / p.slRoi

/-- The PID adjustment `P·error + I·integral + D·derivative`, with the
integral already accumulated (`integralError += error`) and the derivative
taken against the previous error. -/
def rpAdjustment (p : MDParams) (s : MDState) : ℚ :=
  p.pacingP * rpError p s + p.pacingI * (s.integralError + rpError p s) +
    p.pacingD * (rpError p s - s.previousError)

/-- The ROI-pacing (RP) target calculation: fires when
`clicksSinceLastRpUpdate >= kValue && recentHistory.length > 0`.  Returns
(candidate target, new integral error, new previous error, new RP click
counter); when fired, the counter is reset to 0 and the accumulators are
updated whether or not the candidate is later applied. -/
def rpUpdate (p : MDParams) (s : MDState) : Option ℚ × ℚ × ℚ × ℚ :=
  if p.kValue ≤ s.clicksSinceLastRpUpdate ∧ 0 < s.recentHistory.length then
    (some (s.currentTargetRoi * (1 + rpAdjustment p s)),
      s.integralError + rpError p s, rpError p s, 0)
  else
    (none, s.integralError, s.previousError, s.clicksSinceLastRpUpdate)

/-- Cumulative spend of the current day before interval `i`: taken from the
previous interval of the same day, and 0 at a day boundary
(`intervalIndexInDay === 0`). -/
def intervalDailySpend (i : ℕ) (s : MDState) : ℚ :=
  if i % 48 = 0 then 0 else s.dayCumulativeSpend

/-- Cumulative gmv of the current day before interval `i`. -/
def intervalDailyGmv (i : ℕ) (s : MDState) : ℚ :=
  if i % 48 = 0 then 0 else s.dayCumulativeGmv

/-- Cumulative clicks of the current day before interval `i`. -/
def intervalDailyClicks (i : ℕ) (s : MDState) : ℚ :=
  if i % 48 = 0 then 0 else s.dayCumulativeClicks

/-- Day-budget utilisation before interval `i`
(`dailyBudget > 0 ? dailySpend / dailyBudget : 0`). -/
def intervalDayBU (p : MDParams) (i : ℕ) (s : MDState) : ℚ :=
  if 0 < p.dailyBudget then intervalDailySpend i s / p.dailyBudget else 0

/-- Ideal budget utilisation `BU_IDEAL_PLAN[intervalIndexInDay]`. -/
def idealBU (i : ℕ) : ℚ := buIdealPlan.getD (i % 48) 0

/-- The budget-pacing candidate target
`currentTargetRoi + bpP * (dayBudgetUtilisation - idealBudgetUtilisation)`. -/
def bpCandidateValue (p : MDParams) (i : ℕ) (s : MDState) : ℚ :=
  s.currentTargetRoi + p.bpP * (intervalDayBU p i s - idealBU i)

/-- The budget-pacing (BP) target calculation: fires when
`clicksSinceLastBpUpdate >= bpKValue`.  Returns (candidate target, new BP
click counter); when fired the counter is reset whether or not the candidate
is applied. -/
def bpUpdate (p : MDParams) (i : ℕ) (s : MDState) : Option ℚ × ℚ :=
  if p.bpKValue ≤ s.clicksSinceLastBpUpdate then
    (some (bpCandidateValue p i s), 0)
  else (none, s.clicksSinceLastBpUpdate)

/-- Module selection: RP alone, BP alone, or — with both enabled — RP when
delivered ROI is at or below the stop-loss, else BP when overspending
(day budget utilisation above the ideal curve), else RP. -/
def selectModule (useRP useBP : Bool) (deliveredRoi slRoi dayBU idealU : ℚ) :
    ActiveModule :=
  if useRP && !useBP then .RP
  else if !useRP && useBP then .BP
  else if useRP && useBP then
    (if deliveredRoi ≤ slRoi then .RP
     else if idealU < dayBU then .BP
     else .RP)
  else .NoneActive

/-- The actual conversion rate drawn at interval `j`:
`pCvr * randomInRange(0.9, 1.1)`. -/
def actualCVRAt (env : Env) (j : ℕ) : ℚ :=
  env.pcvr j * randomInRange (9/10) (11/10) (env.rand2 j)

/-- Target application: the active module's candidate is applied when it was
computed this interval; otherwise the target is unchanged. -/
def appliedTarget (p : MDParams) (i : ℕ) (s : MDState) : ℚ :=
  let act := selectModule p.useRP p.useBP s.deliveredRoi p.slRoi
    (intervalDayBU p i s) (idealBU i)
  if act = .RP then (rpUpdate p s).1.getD s.currentTargetRoi
  else if act = .BP then (bpUpdate p i s).1.getD s.currentTargetRoi
  else s.currentTargetRoi

/-- Remaining daily budget at interval `i`:
`dailyBudget - dailySpend` with `dailySpend` read from the previous interval
of the same day. -/
def remainingDailyBudgetAt (p : MDParams) (i : ℕ) (s : MDState) : ℚ :=
  p.dailyBudget - intervalDailySpend i s

/-- The interval's bid `pCvr * (aov / currentTargetRoi)`, with the target
just updated by the pacing logic. -/
def bidAt (p : MDParams) (env : Env) (i : ℕ) (s : MDState) : ℚ :=
  env.pcvr i * (p.aov / appliedTarget p i s)

/-- The interval's click-attainment factor: the three-segment curve, gated by
`bid >= BID_THROTTLE_THRESHOLD && remainingDailyBudget > 0` (zero
otherwise). -/
def attainAt (p : MDParams) (env : Env) (i : ℕ) (s : MDState) : ℚ :=
  if bidThrottleThreshold ≤ bidAt p env i s ∧ 0 < remainingDailyBudgetAt p i s
  then clickAttainmentFactor (bidAt p env i s)
  else 0

/-- `maxIntervalClicks = HIGH_CLICKS_PER_HOUR * clickPotential * jitter *
clickAttainmentFactor`, with `clickPotential` the per-interval table value
divided by `INTERVALS_PER_HOUR`. -/
def maxIntervalClicksAt (p : MDParams) (env : Env) (i : ℕ) (s : MDState) : ℚ :=
  highClicksPerHour * (clickPotentialByInterval.getD (i % 48) 0 / 2) *
    randomInRange (9/10) (11/10) (env.rand1 i) * attainAt p env i s

/-- `affordableClicks = bid > 0 ? remainingDailyBudget / bid : 0`. -/
def affordableClicksAt (p : MDParams) (env : Env) (i : ℕ) (s : MDState) : ℚ :=
  if 0 < bidAt p env i s then remainingDailyBudgetAt p i s / bidAt p env i s
  else 0

/-- `clicks = Math.floor(Math.max(0, Math.min(maxIntervalClicks,
affordableClicks)))`. -/
def clicksAt (p : MDParams) (env : Env) (i : ℕ) (s : MDState) : ℚ :=
  ((⌊max 0 (min (maxIntervalClicksAt p env i s) (affordableClicksAt p env i s))⌋ : ℤ) : ℚ)

/-- `spend = clicks * bid`. -/
def spendAt (p : MDParams) (env : Env) (i : ℕ) (s : MDState) : ℚ :=
  clicksAt p env i s * bidAt p env i s

/-- `fractionalOrders = clicks * actualCVR + orderCarryOver`. -/
def fractionalOrdersAt (p : MDParams) (env : Env) (i : ℕ) (s : MDState) : ℚ :=
  clicksAt p env i s * actualCVRAt env i + s.orderCarryOver

/-- `orders = Math.floor(fractionalOrders)`. -/
def ordersAt (p : MDParams) (env : Env) (i : ℕ) (s : MDState) : ℚ :=
  ((⌊fractionalOrdersAt p env i s⌋ : ℤ) : ℚ)

/-- `gmv = orders * aov`. -/
def gmvAt (p : MDParams) (env : Env) (i : ℕ) (s : MDState) : ℚ :=
  ordersAt p env i s * p.aov

/-- The rolling history after interval `i`: push the interval's entry when
`clicks > 0`, then apply the rolling-window trim. -/
def histAfter (p : MDParams) (env : Env) (i : ℕ) (s : MDState) :
    List HistEntry :=
  trimHistory p.nValue
    (if 0 < clicksAt p env i s then
      s.recentHistory ++
        [⟨spendAt p env i s, gmvAt p env i s, clicksAt p env i s, ordersAt p env i s⟩]
    else s.recentHistory)

/-- One interval of `runMultiDaySimulation` (`src/unnamed/part_010`, loop body
of lines 196–372): pacing-candidate computation, module arbitration and
target application, bid and click simulation under the remaining daily
budget, order flooring with carry-over, rolling-history push and trim,
delivered-ROI refresh, day-cumulative updates, and the emitted
`TimeIntervalResult`. -/
def stepInterval (p : MDParams) (env : Env) (i : ℕ) (s : MDState) :
    MDState × IntervalResult :=
  let day := i / 48 + 1
  let hour := (i % 48) / 2
  let dailySpend := intervalDailySpend i s
  let dailyGmv := intervalDailyGmv i s
  let dailyClicks := intervalDailyClicks i s
  let rp := rpUpdate p s
  let bp := bpUpdate p i s
  let act := selectModule p.useRP p.useBP s.deliveredRoi p.slRoi
    (intervalDayBU p i s) (idealBU i)
  let target1 := appliedTarget p i s
  let pCvr := env.pcvr i
  let bid := bidAt p env i s
  let clicks := clicksAt p env i s
  let spend := spendAt p env i s
  let orders := ordersAt p env i s
  let carry := fractionalOrdersAt p env i s - orders
  let gmv := gmvAt p env i s
  let hist2 := histAfter p env i s
  let tSpend := histSpend hist2
  let delivered := if 0 < tSpend then histGmv hist2 / tSpend else s.deliveredRoi
  let dcs := dailySpend + spend
  let dcg := dailyGmv + gmv
  let dcc := dailyClicks + clicks
  let dayROI := if 0 < dcs then dcg / dcs else 0
  let finalBU := if 0 < p.dailyBudget then dcs / p.dailyBudget else 0
  ({ recentHistory := hist2
     clicksSinceLastRpUpdate := rp.2.2.2 + clicks
     clicksSinceLastBpUpdate := bp.2 + clicks
     currentTargetRoi := target1
     deliveredRoi := delivered
     integralError := rp.2.1
     previousError := rp.2.2.1
     orderCarryOver := carry
     dayCumulativeSpend := dcs
     dayCumulativeGmv := dcg
     dayCumulativeClicks := dcc },
   { timestamp := i
     day := day
     hour := hour
     targetROI := target1
     deliveredROI := delivered
     dayROI := dayROI
     slRoi := p.slRoi
     clicks := clicks
     orders := orders
     gmv := gmv
     spend := spend
     avgBid := bid
     pCvr := pCvr
     dayCumulativeClicks := dcc
     dayCumulativeGmv := dcg
     dayCumulativeSpend := dcs
     dayBudgetUtilisation := finalBU
     idealBudgetUtilisation := idealBU i
     activeModule := act })

/-- The warm-up phase: when `initialDeliveredRoi > 0 && nValue > 0`, seed the
rolling history with one entry of `nValue` clicks consistent with the assumed
delivered ROI, using the warm-up estimator response. -/
def warmupState (p : MDParams) (env : Env) : MDState :=
  let hist : List HistEntry :=
    if 0 < p.initialDeliveredRoi ∧ 0 < p.nValue then
      let initialPCVR := env.warmupPcvr
      let initialBid := initialPCVR * (p.aov / p.initialTargetRoi)
      let warmupSpend := p.nValue * initialBid
      let warmupGmv := warmupSpend * p.initialDeliveredRoi
      let warmupOrders : ℚ := ((⌊warmupGmv / p.aov⌋ : ℤ) : ℚ)
      [⟨warmupSpend, warmupGmv, p.nValue, warmupOrders⟩]
    else []
  { recentHistory := hist
    clicksSinceLastRpUpdate := 0
    clicksSinceLastBpUpdate := 0
    currentTargetRoi := p.initialTargetRoi
    deliveredRoi := p.initialDeliveredRoi
    integralError := 0
    previousError := 0
    orderCarryOver := 0
    dayCumulativeSpend := 0
    dayCumulativeGmv := 0
    dayCumulativeClicks := 0 }

/-- Loop state before interval `k` of the multi-day run. -/
def stateAfter (p : MDParams) (env : Env) : ℕ → MDState
  | 0 => warmupState p env
  | k + 1 => (stepInterval p env k (stateAfter p env k)).1

/-- The `TimeIntervalResult` emitted at interval `k` of the multi-day run. -/
def resultAt (p : MDParams) (env : Env) (k : ℕ) : IntervalResult :=
  (stepInterval p env k (stateAfter p env k)).2

/-- The loop of the multi-day simulator: run `n` further intervals starting
at global index `i` in state `s`, collecting emitted results in order. -/
def runFrom (p : MDParams) (env : Env) : MDState → ℕ → ℕ → List IntervalResult
  | _, _, 0 => []
  | s, i, n + 1 =>
    let res := stepInterval p env i s
    res.2 :: runFrom p env res.1 (i + 1) n

/-- `runMultiDaySimulation`: the full emitted stream of
`numDays * 24 * INTERVALS_PER_HOUR` interval results. -/
def runMultiDaySimulation (p : MDParams) (env : Env) : List IntervalResult :=
  runFrom p env (warmupState p env) 0 (p.numDays * 48)

/-- One window's emitted record of the single-window simulator
(`SimulationWindowResult`; `name` is a formatting string and omitted).
`totalClicks` is the `Math.round`ed click count as pushed by the source. -/
structure WindowResult where
  targetROI : ℚ
  avgBid : ℚ
  totalClicks : ℚ
  totalOrders : ℚ
  totalSpend : ℚ
  totalRevenue : ℚ
  deliveredROI : ℚ
  avgPCVR : ℚ
  ordersToClicksRatio : ℚ

/-- The 24-hour summary of the single-window simulator. -/
structure SimSummary where
  totalClicks : ℚ
  totalOrders : ℚ
  totalSpend : ℚ
  totalRevenue : ℚ
  finalDeliveredROI : ℚ
  budgetUtilisation : ℚ
  budget : ℚ
  spentAllBudget : Bool

/-- The return value of `runSimulation`. -/
structure SimResults where
  windows : List WindowResult
  summary : SimSummary

/-- `Math.round` (round half toward positive infinity). -/
def jsRound (q : ℚ) : ℤ := ⌊q + 1/2⌋

/-- Bid of window `idx` with target `t`: `pCVR * (aov / targetROI)`. -/
def windowBid (aov : ℚ) (env : Env) (idx : ℕ) (t : ℚ) : ℚ :=
  env.pcvr idx * (aov / t)

/-- `potentialWindowClicks` of window `idx`:
`HIGH_CLICKS_PER_HOUR * clickPotentialByWindow[i] * attainment * 6 * jitter`. -/
def windowPotentialClicks (aov : ℚ) (env : Env) (idx : ℕ) (t : ℚ) : ℚ :=
  highClicksPerHour * clickPotentialByWindow.getD idx 0 *
    clickAttainmentFactor (windowBid aov env idx t) * 6 *
    randomInRange (95/100) (105/100) (env.rand1 idx)

/-- Clicks of window `idx`: the clamp `min(potentialWindowClicks,
remaining / bid)` inside the `remainingBudget > 0 && bid >=
BID_THROTTLE_THRESHOLD` gate, zero outside it. -/
def windowClicks (aov : ℚ) (env : Env) (idx : ℕ) (t rem : ℚ) : ℚ :=
  if 0 < rem ∧ bidThrottleThreshold ≤ windowBid aov env idx t then
    min (windowPotentialClicks aov env idx t) (rem / windowBid aov env idx t)
  else 0

/-- Spend of window `idx`: `totalClicks * bid`. -/
def windowSpend (aov : ℚ) (env : Env) (idx : ℕ) (t rem : ℚ) : ℚ :=
  windowClicks aov env idx t rem * windowBid aov env idx t

/-- Whether window `idx` trips the sticky `spentAllBudget` flag: the clamp
was budget-bound and windows remain. -/
def windowFlagHit (aov : ℚ) (env : Env) (nTargets idx : ℕ) (t rem : ℚ) : Bool :=
  if 0 < rem ∧ bidThrottleThreshold ≤ windowBid aov env idx t then
    decide (rem / windowBid aov env idx t ≤ windowClicks aov env idx t rem) &&
      decide (idx < nTargets - 1)
  else false

/-- Loop body of `runSimulation` over the remaining ROI targets.  `idx` is the
window index `i`, `remaining` the `remainingBudget` local, `flag` the sticky
`spentAllBudget` flag, `nTargets` the length of `roiTargets`.  Returns the
emitted window records together with the final remaining budget and flag. -/
def runSimGo (aov : ℚ) (env : Env) (nTargets : ℕ) :
    List ℚ → ℕ → ℚ → Bool → List WindowResult × ℚ × Bool
  | [], _, remaining, flag => ([], remaining, flag)
  | t :: rest, idx, remaining, flag =>
    let pcvr := env.pcvr idx
    let bid := windowBid aov env idx t
    let totalClicks := windowClicks aov env idx t remaining
    let actualCVR := pcvr * randomInRange (85/100) (115/100) (env.rand2 idx)
    let totalOrders : ℚ := ((⌊totalClicks * actualCVR⌋ : ℤ) : ℚ)
    let totalSpend := windowSpend aov env idx t remaining
    let remaining1 := remaining - totalSpend
    let remaining2 := if remaining1 < 0 then 0 else remaining1
    let totalRevenue := totalOrders * aov
    let deliveredROI := if 0 < totalSpend then totalRevenue / totalSpend else 0
    let w : WindowResult :=
      { targetROI := t
        avgBid := bid
        totalClicks := ((jsRound totalClicks : ℤ) : ℚ)
        totalOrders := totalOrders
        totalSpend := totalSpend
        totalRevenue := totalRevenue
        deliveredROI := deliveredROI
        avgPCVR := pcvr
        ordersToClicksRatio := if 0 < totalClicks then totalOrders / totalClicks else 0 }
    let tail := runSimGo aov env nTargets rest (idx + 1) remaining2
      (flag || windowFlagHit aov env nTargets idx t remaining)
    (w :: tail.1, tail.2)

/-- `runSimulation(roiTargets, aov, budget)` of `src/src/lib/simulation.ts`:
the four 6-hour windows in order, then the 24-hour summary (summary clicks
aggregate the rounded per-window clicks, as in the source `reduce`). -/
def runSimulation (roiTargets : List ℚ) (aov budget : ℚ) (env : Env) :
    SimResults :=
  let r := runSimGo aov env roiTargets.length roiTargets 0 budget false
  let ws := r.1
  let tClicks := (ws.map WindowResult.totalClicks).sum
  let tOrders := (ws.map WindowResult.totalOrders).sum
  let tSpend := (ws.map WindowResult.totalSpend).sum
  let tRevenue := (ws.map WindowResult.totalRevenue).sum
  { windows := ws
    summary :=
      { totalClicks := tClicks
        totalOrders := tOrders
        totalSpend := tSpend
        totalRevenue := tRevenue
        finalDeliveredROI := if 0 < tSpend then tRevenue / tSpend else 0
        budgetUtilisation := if 0 < budget then tSpend / budget else 0
        budget := budget
        spentAllBudget := r.2.2 } }

/-- Hourly pCVR modifier table of `src/src/app/actions.ts`
(`pCVR_MODIFIER_BY_HOUR`, 24 entries). -/
def pCVRModifierByHour : List ℝ :=
  [0.79, 0.79, 0.79, 0.79, 0.79, 0.84, 0.95, 1.16, 1.21, 1.16, 1.16, 1.11,
   1.05, 1.00, 0.95, 0.89, 0.89, 0.89, 0.89, 0.89, 0.89, 0.84, 0.84, 0.89]

/-- Response of the estimator: the success branch `{ adjustedPCVR }` or the
catch branch `{ error, adjustedPCVR: basePCVR }` (the error string carries no
data and is dropped). -/
inductive PCVRResponse where
  | ok (adjustedPCVR : ℝ)
  | fallback (adjustedPCVR : ℝ)

/-- `getAdjustedPCVR` of `src/src/app/actions.ts`, as a function of its
explicit `Math.random()` draw `r`: log-damped ROI bias against the baseline
ROI 15, hour-of-day modifier, multiplicative calibration-error perturbation,
and a floor at 0.0001.  The hour lookup is the one partial operation of the
`try` body; an out-of-range hour takes the catch branch, which returns the
un-floored `basePCVR`. -/
noncomputable def getAdjustedPCVR (targetROI aov : ℝ) (hour : ℕ)
    (basePCVR calibrationError : ℝ) (r : ℝ) : PCVRResponse :=
  match pCVRModifierByHour.get? hour with
  | some m =>
    let roiRatio := targetROI / 15
    let roiBias := Real.log (max 1 roiRatio) * 0.1
    let biasedPCVR := basePCVR * (1 + roiBias)
    let timeAdjustedPCVR := biasedPCVR * m
    let errorMultiplier :=
      1 + randomInRange (-calibrationError) calibrationError r
    .ok (max 0.0001 (timeAdjustedPCVR * errorMultiplier))
  | none => .fallback basePCVR

/-- State after a step: rolling history. -/
@[simp] lemma stepState_recentHistory (p : MDParams) (env : Env) (i : ℕ) (s : MDState) :
    (stepInterval p env i s).1.recentHistory = histAfter p env i s := rfl

/-- State after a step: RP click counter. -/
@[simp] lemma stepState_rpClicks (p : MDParams) (env : Env) (i : ℕ) (s : MDState) :
    (stepInterval p env i s).1.clicksSinceLastRpUpdate =
      (rpUpdate p s).2.2.2 + clicksAt p env i s := rfl

/-- State after a step: BP click counter. -/
@[simp] lemma stepState_bpClicks (p : MDParams) (env : Env) (i : ℕ) (s : MDState) :
    (stepInterval p env i s).1.clicksSinceLastBpUpdate =
      (bpUpdate p i s).2 + clicksAt p env i s := rfl

/-- State after a step: current target ROI. -/
@[simp] lemma stepState_target (p : MDParams) (env : Env) (i : ℕ) (s : MDState) :
    (stepInterval p env i s).1.currentTargetRoi = appliedTarget p i s := rfl

/-- State after a step: delivered ROI. -/
@[simp] lemma stepState_delivered (p : MDParams) (env : Env) (i : ℕ) (s : MDState) :
    (stepInterval p env i s).1.deliveredRoi =
      (if 0 < histSpend (histAfter p env i s) then
        histGmv (histAfter p env i s) / histSpend (histAfter p env i s)
      else s.deliveredRoi) := rfl

/-- State after a step: integral error accumulator. -/
@[simp] lemma stepState_integral (p : MDParams) (env : Env) (i : ℕ) (s : MDState) :
    (stepInterval p env i s).1.integralError = (rpUpdate p s).2.1 := rfl

/-- State after a step: previous error. -/
@[simp] lemma stepState_prevError (p : MDParams) (env : Env) (i : ℕ) (s : MDState) :
    (stepInterval p env i s).1.previousError = (rpUpdate p s).2.2.1 := rfl

/-- State after a step: order carry-over. -/
@[simp] lemma stepState_carry (p : MDParams) (env : Env) (i : ℕ) (s : MDState) :
    (stepInterval p env i s).1.orderCarryOver =
      fractionalOrdersAt p env i s - ordersAt p env i s := rfl

/-- State after a step: day-cumulative spend. -/
@[simp] lemma stepState_daySpend (p : MDParams) (env : Env) (i : ℕ) (s : MDState) :
    (stepInterval p env i s).1.dayCumulativeSpend =
      intervalDailySpend i s + spendAt p env i s := rfl

/-- State after a step: day-cumulative gmv. -/
@[simp] lemma stepState_dayGmv (p : MDParams) (env : Env) (i : ℕ) (s : MDState) :
    (stepInterval p env i s).1.dayCumulativeGmv =
      intervalDailyGmv i s + gmvAt p env i s := rfl

/-- State after a step: day-cumulative clicks. -/
@[simp] lemma stepState_dayClicks (p : MDParams) (env : Env) (i : ℕ) (s : MDState) :
    (stepInterval p env i s).1.dayCumulativeClicks =
      intervalDailyClicks i s + clicksAt p env i s := rfl

/-- Emitted result: target ROI. -/
@[simp] lemma stepResult_target (p : MDParams) (env : Env) (i : ℕ) (s : MDState) :
    (stepInterval p env i s).2.targetROI = appliedTarget p i s := rfl

/-- Emitted result: delivered ROI. -/
@[simp] lemma stepResult_delivered (p : MDParams) (env : Env) (i : ℕ) (s : MDState) :
    (stepInterval p env i s).2.deliveredROI =
      (if 0 < histSpend (histAfter p env i s) then
        histGmv (histAfter p env i s) / histSpend (histAfter p env i s)
      else s.deliveredRoi) := rfl

/-- Emitted result: clicks. -/
@[simp] lemma stepResult_clicks (p : MDParams) (env : Env) (i : ℕ) (s : MDState) :
    (stepInterval p env i s).2.clicks = clicksAt p env i s := rfl

/-- Emitted result: orders. -/
@[simp] lemma stepResult_orders (p : MDParams) (env : Env) (i : ℕ) (s : MDState) :
    (stepInterval p env i s).2.orders = ordersAt p env i s := rfl

/-- Emitted result: gmv. -/
@[simp] lemma stepResult_gmv (p : MDParams) (env : Env) (i : ℕ) (s : MDState) :
    (stepInterval p env i s).2.gmv = gmvAt p env i s := rfl

/-- Emitted result: spend. -/
@[simp] lemma stepResult_spend (p : MDParams) (env : Env) (i : ℕ) (s : MDState) :
    (stepInterval p env i s).2.spend = spendAt p env i s := rfl

/-- Emitted result: day-cumulative spend. -/
@[simp] lemma stepResult_daySpend (p : MDParams) (env : Env) (i : ℕ) (s : MDState) :
    (stepInterval p env i s).2.dayCumulativeSpend =
      intervalDailySpend i s + spendAt p env i s := rfl

/-- Emitted result: active module tag. -/
@[simp] lemma stepResult_activeModule (p : MDParams) (env : Env) (i : ℕ) (s : MDState) :
    (stepInterval p env i s).2.activeModule =
      selectModule p.useRP p.useBP s.deliveredRoi p.slRoi
        (intervalDayBU p i s) (idealBU i) := rfl

/-- Emitted result: bid. -/
@[simp] lemma stepResult_avgBid (p : MDParams) (env : Env) (i : ℕ) (s : MDState) :
    (stepInterval p env i s).2.avgBid = bidAt p env i s := rfl

/-- The click-attainment curve is nonnegative on every segment. -/
lemma clickAttainmentFactor_nonneg (bid : ℚ) : 0 ≤ clickAttainmentFactor bid := by
  unfold clickAttainmentFactor
  split_ifs with h1 h2
  · positivity
  · norm_num
  · have hlow : competitorLowBidThreshold ≤ bid := not_lt.mp h1
    have hpos : (0:ℚ) ≤ (bid - competitorLowBidThreshold) /
        (competitorHighBidThreshold - competitorLowBidThreshold) := by
      apply div_nonneg (by linarith)
      norm_num [competitorHighBidThreshold, competitorLowBidThreshold]
    linarith

/-- Clicks of an interval are nonnegative (floor of a `max 0`). -/
lemma clicksAt_nonneg (p : MDParams) (env : Env) (i : ℕ) (s : MDState) :
    0 ≤ clicksAt p env i s := by
  unfold clicksAt
  exact_mod_cast Int.floor_nonneg.mpr (le_max_left _ _)

/-- Clicks of an interval are at most the clamped continuous click count. -/
lemma clicksAt_le_max (p : MDParams) (env : Env) (i : ℕ) (s : MDState) :
    clicksAt p env i s ≤
      max 0 (min (maxIntervalClicksAt p env i s) (affordableClicksAt p env i s)) :=
  Int.floor_le _

/-- With a non-positive bid there are no affordable clicks, hence no clicks. -/
lemma clicksAt_eq_zero_of_bid_nonpos (p : MDParams) (env : Env) (i : ℕ)
    (s : MDState) (h : ¬ 0 < bidAt p env i s) : clicksAt p env i s = 0 := by
  unfold clicksAt affordableClicksAt
  rw [if_neg h, max_eq_left (min_le_right _ _)]
  simp

/-- Interval spend is nonnegative. -/
lemma spendAt_nonneg (p : MDParams) (env : Env) (i : ℕ) (s : MDState) :
    0 ≤ spendAt p env i s := by
  unfold spendAt
  by_cases hb : 0 < bidAt p env i s
  · exact mul_nonneg (clicksAt_nonneg p env i s) hb.le
  · rw [clicksAt_eq_zero_of_bid_nonpos p env i s hb, zero_mul]

/-- Interval spend never exceeds the remaining daily budget (when that is
nonnegative): clicks are clamped to `remainingDailyBudget / bid`. -/
lemma spendAt_le_remaining (p : MDParams) (env : Env) (i : ℕ) (s : MDState)
    (h : 0 ≤ remainingDailyBudgetAt p i s) :
    spendAt p env i s ≤ remainingDailyBudgetAt p i s := by
  unfold spendAt
  by_cases hb : 0 < bidAt p env i s
  · have haff : affordableClicksAt p env i s =
        remainingDailyBudgetAt p i s / bidAt p env i s := by
      unfold affordableClicksAt; rw [if_pos hb]
    have h0 : 0 ≤ affordableClicksAt p env i s := by
      rw [haff]; exact div_nonneg h hb.le
    have h1 : clicksAt p env i s ≤ affordableClicksAt p env i s :=
      (clicksAt_le_max p env i s).trans (max_le h0 (min_le_right _ _))
    calc clicksAt p env i s * bidAt p env i s
        ≤ affordableClicksAt p env i s * bidAt p env i s :=
          mul_le_mul_of_nonneg_right h1 hb.le
      _ = remainingDailyBudgetAt p i s := by
          rw [haff, div_mul_cancel₀ _ (ne_of_gt hb)]
  · rw [clicksAt_eq_zero_of_bid_nonpos p env i s hb, zero_mul]; exact h

/-- A history of nonnegative-click entries has nonnegative total clicks. -/
lemma histClicks_nonneg (l : List HistEntry) (h : ∀ e ∈ l, 0 ≤ e.clicks) :
    0 ≤ histClicks l := by
  induction l with
  | nil => simp [histClicks]
  | cons a t ih =>
    have ha := h a (List.mem_cons_self a t)
    have ht := ih (fun e he => h e (List.mem_cons_of_mem a he))
    simp only [histClicks, List.map_cons, List.sum_cons] at *
    linarith

/-- Clicks retained by the trim walk: everything when the input holds fewer
than the remaining room `n - acc`, exactly the room otherwise. -/
lemma trimGo_clicks (n : ℚ) :
    ∀ (l : List HistEntry) (acc : ℚ), 0 ≤ acc → acc ≤ n →
      (∀ e ∈ l, 0 ≤ e.clicks) →
      histClicks (trimGo n acc l) = min (n - acc) (histClicks l) := by
  intro l
  induction l with
  | nil =>
    intro acc _ hacc _
    simp [trimGo, histClicks, min_eq_right, sub_nonneg.mpr hacc]
  | cons h rest ih =>
    intro acc hacc0 haccn hnn
    have hh := hnn h (List.mem_cons_self h rest)
    have hrest := fun e he => hnn e (List.mem_cons_of_mem h he)
    by_cases hfit : acc + h.clicks ≤ n
    · rw [trimGo, if_pos hfit]
      have := ih (acc + h.clicks) (by linarith) hfit hrest
      simp only [histClicks, List.map_cons, List.sum_cons] at *
      rw [this]
      rcases le_total (n - (acc + h.clicks)) (histClicks rest) with hle | hle <;>
        simp only [histClicks] at hle
      · rw [min_eq_left hle, min_eq_left (by linarith)]
        ring
      · rw [min_eq_right hle, min_eq_right (by linarith)]
    · rw [trimGo, if_neg hfit]
      push_neg at hfit
      have hcpos : 0 < h.clicks := by linarith
      have hsum : 0 ≤ (rest.map HistEntry.clicks).sum :=
        histClicks_nonneg rest hrest
      simp only [histClicks, scaleEntry, List.map_cons, List.map_nil,
        List.sum_cons, List.sum_nil, add_zero]
      rw [mul_comm, div_mul_cancel₀ _ (ne_of_gt hcpos)]
      have : n - acc ≤ h.clicks + (rest.map HistEntry.clicks).sum := by linarith
      rw [min_eq_left this]

/-- Every entry retained by the trim walk has nonnegative clicks. -/
lemma trimGo_clicks_nonneg (n : ℚ) :
    ∀ (l : List HistEntry) (acc : ℚ), 0 ≤ acc → acc ≤ n →
      (∀ e ∈ l, 0 ≤ e.clicks) →
      ∀ e ∈ trimGo n acc l, 0 ≤ e.clicks := by
  intro l
  induction l with
  | nil => intro acc _ _ _ e he; simp [trimGo] at he
  | cons h rest ih =>
    intro acc hacc0 haccn hnn e he
    have hh := hnn h (List.mem_cons_self h rest)
    have hrest := fun e he => hnn e (List.mem_cons_of_mem h he)
    by_cases hfit : acc + h.clicks ≤ n
    · rw [trimGo, if_pos hfit] at he
      rcases List.mem_cons.mp he with rfl | he
      · exact hh
      · exact ih (acc + h.clicks) (by linarith) hfit hrest e he
    · rw [trimGo, if_neg hfit] at he
      push_neg at hfit
      have hcpos : 0 < h.clicks := by linarith
      rcases List.mem_cons.mp he with rfl | he
      · show 0 ≤ h.clicks * ((n - acc) / h.clicks)
        rw [mul_comm, div_mul_cancel₀ _ (ne_of_gt hcpos)]
        linarith
      · simp at he
      
/-- The rolling-window trim keeps `min n total` clicks. -/
lemma trimHistory_clicks (n : ℚ) (hn : 0 ≤ n) (l : List HistEntry)
    (h : ∀ e ∈ l, 0 ≤ e.clicks) :
    histClicks (trimHistory n l) = min n (histClicks l) := by
  unfold trimHistory
  have h1 : ∀ e ∈ l.reverse, 0 ≤ e.clicks := by
    intro e he; exact h e (List.mem_reverse.mp he)
  have := trimGo_clicks n l.reverse 0 le_rfl hn h1
  simp only [histClicks, List.map_reverse, List.sum_reverse] at *
  simpa using this

/-- The rolling-window trim preserves nonnegativity of entry clicks. -/
lemma trimHistory_clicks_nonneg (n : ℚ) (hn : 0 ≤ n) (l : List HistEntry)
    (h : ∀ e ∈ l, 0 ≤ e.clicks) :
    ∀ e ∈ trimHistory n l, 0 ≤ e.clicks := by
  intro e he
  unfold trimHistory at he
  have h1 : ∀ x ∈ l.reverse, 0 ≤ x.clicks := by
    intro x hx; exact h x (List.mem_reverse.mp hx)
  exact trimGo_clicks_nonneg n l.reverse 0 le_rfl hn h1 e (List.mem_reverse.mp he)

/-- One step keeps day-cumulative spend within `[0, dailyBudget]`. -/
lemma step_daySpend_bounds (p : MDParams) (env : Env) (i : ℕ) (s : MDState)
    (hb : 0 ≤ p.dailyBudget) (h0 : 0 ≤ s.dayCumulativeSpend)
    (h1 : s.dayCumulativeSpend ≤ p.dailyBudget) :
    0 ≤ (stepInterval p env i s).1.dayCumulativeSpend ∧
      (stepInterval p env i s).1.dayCumulativeSpend ≤ p.dailyBudget := by
  have hds0 : 0 ≤ intervalDailySpend i s := by
    unfold intervalDailySpend; split_ifs
    · norm_num
    · exact h0
  have hds1 : intervalDailySpend i s ≤ p.dailyBudget := by
    unfold intervalDailySpend; split_ifs
    · exact hb
    · exact h1
  have hrem : 0 ≤ remainingDailyBudgetAt p i s := by
    unfold remainingDailyBudgetAt; linarith
  have hsp0 := spendAt_nonneg p env i s
  have hsp1 := spendAt_le_remaining p env i s hrem
  unfold remainingDailyBudgetAt at hsp1
  rw [stepState_daySpend]
  constructor <;> linarith

/-- A property `Q` holds of every result the loop emits, given a state
invariant `P` that each step preserves while establishing `Q`. -/
lemma runFrom_invariant (p : MDParams) (env : Env) (P : MDState → Prop)
    (Q : IntervalResult → Prop)
    (hstep : ∀ i s, P s → P (stepInterval p env i s).1 ∧ Q (stepInterval p env i s).2) :
    ∀ (n i : ℕ) (s : MDState), P s → ∀ r ∈ runFrom p env s i n, Q r := by
  intro n
  induction n with
  | zero => intro i s _ r hr; simp [runFrom] at hr
  | succ n ih =>
    intro i s hs r hr
    rw [runFrom] at hr
    rcases List.mem_cons.mp hr with rfl | hr
    · exact (hstep i s hs).2
    · exact ih (i + 1) _ (hstep i s hs).1 r hr

/-- The loop emits exactly `n` results. -/
lemma runFrom_length (p : MDParams) (env : Env) :
    ∀ (n i : ℕ) (s : MDState), (runFrom p env s i n).length = n := by
  intro n
  induction n with
  | zero => intro i s; rfl
  | succ n ih => intro i s; rw [runFrom]; simp [ih]

/-- The first emitted result of a nonempty loop is the first step's result. -/
lemma runFrom_head (p : MDParams) (env : Env) (s : MDState) (i n : ℕ) :
    (runFrom p env s i (n + 1)).head? = some (stepInterval p env i s).2 := by
  rw [runFrom]; rfl

/-- When the remaining daily budget is exhausted (zero or negative), the
click-attainment gate closes. -/
lemma attainAt_eq_zero_of_no_budget (p : MDParams) (env : Env) (i : ℕ)
    (s : MDState) (h : remainingDailyBudgetAt p i s ≤ 0) :
    attainAt p env i s = 0 := by
  unfold attainAt
  rw [if_neg]
  rintro ⟨-, hlt⟩
  linarith

/-- When the remaining daily budget is exhausted, the interval emits zero
clicks. -/
lemma clicksAt_eq_zero_of_no_budget (p : MDParams) (env : Env) (i : ℕ)
    (s : MDState) (h : remainingDailyBudgetAt p i s ≤ 0) :
    clicksAt p env i s = 0 := by
  unfold clicksAt
  have hmax : maxIntervalClicksAt p env i s = 0 := by
    unfold maxIntervalClicksAt
    rw [attainAt_eq_zero_of_no_budget p env i s h, mul_zero]
  have haff : affordableClicksAt p env i s ≤ 0 := by
    unfold affordableClicksAt
    split_ifs with hb
    · exact div_nonpos_of_nonpos_of_nonneg h hb.le
    · exact le_rfl
  rw [hmax, max_eq_left (le_trans (min_le_right _ _) haff)]
  simp

/-- When the remaining daily budget is exhausted, the interval emits zero
spend. -/
lemma spendAt_eq_zero_of_no_budget (p : MDParams) (env : Env) (i : ℕ)
    (s : MDState) (h : remainingDailyBudgetAt p i s ≤ 0) :
    spendAt p env i s = 0 := by
  unfold spendAt
  rw [clicksAt_eq_zero_of_no_budget p env i s h, zero_mul]

/-- When the remaining daily budget is exhausted and the carry-over is a
proper fraction, the interval emits zero orders. -/
lemma ordersAt_eq_zero_of_no_budget (p : MDParams) (env : Env) (i : ℕ)
    (s : MDState) (h : remainingDailyBudgetAt p i s ≤ 0)
    (hc0 : 0 ≤ s.orderCarryOver) (hc1 : s.orderCarryOver < 1) :
    ordersAt p env i s = 0 := by
  unfold ordersAt fractionalOrdersAt
  rw [clicksAt_eq_zero_of_no_budget p env i s h, zero_mul, zero_add]
  have : ⌊s.orderCarryOver⌋ = 0 := Int.floor_eq_zero_iff.mpr ⟨hc0, hc1⟩
  rw [this]; rfl

/-- When the remaining daily budget is exhausted and the carry-over is a
proper fraction, the interval emits zero gmv. -/
lemma gmvAt_eq_zero_of_no_budget (p : MDParams) (env : Env) (i : ℕ)
    (s : MDState) (h : remainingDailyBudgetAt p i s ≤ 0)
    (hc0 : 0 ≤ s.orderCarryOver) (hc1 : s.orderCarryOver < 1) :
    gmvAt p env i s = 0 := by
  unfold gmvAt
  rw [ordersAt_eq_zero_of_no_budget p env i s h hc0 hc1, zero_mul]

/-- The carry-over left by any step is the fractional part of the continuous
order count: it lies in `[0, 1)`. -/
lemma step_carry_bounds (p : MDParams) (env : Env) (i : ℕ) (s : MDState) :
    0 ≤ (stepInterval p env i s).1.orderCarryOver ∧
      (stepInterval p env i s).1.orderCarryOver < 1 := by
  rw [stepState_carry]
  unfold ordersAt
  rw [Int.self_sub_floor]
  exact ⟨Int.fract_nonneg _, Int.fract_lt_one _⟩

/-- The carry-over of every reachable state lies in `[0, 1)`. -/
lemma stateAfter_carry_bounds (p : MDParams) (env : Env) :
    ∀ k, 0 ≤ (stateAfter p env k).orderCarryOver ∧
      (stateAfter p env k).orderCarryOver < 1 := by
  intro k
  cases k with
  | zero => simp [stateAfter, warmupState]
  | succ k => exact step_carry_bounds p env k (stateAfter p env k)

/-- Total clicks seeded by the warm-up phase. -/
lemma warmup_histClicks (p : MDParams) (env : Env) :
    histClicks (warmupState p env).recentHistory =
      (if 0 < p.initialDeliveredRoi ∧ 0 < p.nValue then p.nValue else 0) := by
  unfold warmupState
  split_ifs with h <;> simp [histClicks]

/-- Warm-up history entries have nonnegative clicks. -/
lemma warmup_hist_nonneg (p : MDParams) (env : Env) :
    ∀ e ∈ (warmupState p env).recentHistory, 0 ≤ e.clicks := by
  unfold warmupState
  split_ifs with h
  · intro e he
    simp only [List.mem_singleton] at he
    subst he
    exact le_of_lt h.2
  · intro e he; simp at he

/-- Total clicks after a push-and-trim step: `min nValue (previous + new)`. -/
lemma histAfter_clicks (p : MDParams) (env : Env) (i : ℕ) (s : MDState)
    (hn : 0 ≤ p.nValue) (h : ∀ e ∈ s.recentHistory, 0 ≤ e.clicks) :
    histClicks (histAfter p env i s) =
      min p.nValue (histClicks s.recentHistory + clicksAt p env i s) := by
  unfold histAfter
  by_cases hc : 0 < clicksAt p env i s
  · rw [if_pos hc]
    have hall : ∀ e ∈ s.recentHistory ++
        [⟨spendAt p env i s, gmvAt p env i s, clicksAt p env i s, ordersAt p env i s⟩],
        0 ≤ e.clicks := by
      intro e he
      rcases List.mem_append.mp he with he | he
      · exact h e he
      · simp only [List.mem_singleton] at he
        subst he
        exact hc.le
    rw [trimHistory_clicks p.nValue hn _ hall]
    simp [histClicks]
  · rw [if_neg hc]
    have hc0 : clicksAt p env i s = 0 :=
      le_antisymm (not_lt.mp hc) (clicksAt_nonneg p env i s)
    rw [trimHistory_clicks p.nValue hn _ h, hc0, add_zero]

/-- Entries of the post-trim history keep nonnegative clicks. -/
lemma histAfter_nonneg (p : MDParams) (env : Env) (i : ℕ) (s : MDState)
    (hn : 0 ≤ p.nValue) (h : ∀ e ∈ s.recentHistory, 0 ≤ e.clicks) :
    ∀ e ∈ histAfter p env i s, 0 ≤ e.clicks := by
  unfold histAfter
  by_cases hc : 0 < clicksAt p env i s
  · rw [if_pos hc]
    apply trimHistory_clicks_nonneg p.nValue hn
    intro e he
    rcases List.mem_append.mp he with he | he
    · exact h e he
    · simp only [List.mem_singleton] at he
      subst he
      exact hc.le
  · rw [if_neg hc]
    exact trimHistory_clicks_nonneg p.nValue hn _ h

/-- Min-window absorption: once clipped to the window, adding more clicks and
re-clipping is the same as clipping the raw total. -/
lemma min_window_add (n a c : ℚ) (hc : 0 ≤ c) :
    min n (min n a + c) = min n (a + c) := by
  rcases le_total a n with hle | hle
  · rw [min_eq_right hle]
  · rw [min_eq_left hle, min_eq_left (by linarith : n ≤ n + c),
      min_eq_left (by linarith : n ≤ a + c)]

/-- Rolling-history invariant of the multi-day run: entries keep nonnegative
clicks, and the retained total clicks equal the window size clipped against
warm-up plus accumulated clicks. -/
lemma stateAfter_hist_invariant (p : MDParams) (env : Env) (hn : 0 ≤ p.nValue) :
    ∀ k, (∀ e ∈ (stateAfter p env k).recentHistory, 0 ≤ e.clicks) ∧
      histClicks (stateAfter p env k).recentHistory =
        min p.nValue (histClicks (warmupState p env).recentHistory +
          ∑ j ∈ Finset.range k, clicksAt p env j (stateAfter p env j)) := by
  intro k
  induction k with
  | zero =>
    refine ⟨warmup_hist_nonneg p env, ?_⟩
    have h0 : stateAfter p env 0 = warmupState p env := rfl
    rw [h0, Finset.range_zero, Finset.sum_empty, add_zero, warmup_histClicks]
    split_ifs with h
    · rw [min_self]
    · rw [min_eq_right hn]
  | succ k ih =>
    have hstate : (stateAfter p env (k + 1)).recentHistory =
        histAfter p env k (stateAfter p env k) := rfl
    refine ⟨?_, ?_⟩
    · rw [hstate]
      exact histAfter_nonneg p env k _ hn ih.1
    · rw [hstate, histAfter_clicks p env k _ hn ih.1, ih.2,
        Finset.sum_range_succ, ← add_assoc]
      exact min_window_add _ _ _ (clicksAt_nonneg p env k _)

/-- A window's spend never exceeds the remaining budget entering it. -/
lemma windowSpend_le (aov : ℚ) (env : Env) (idx : ℕ) (t rem : ℚ)
    (h : 0 ≤ rem) : windowSpend aov env idx t rem ≤ rem := by
  unfold windowSpend windowClicks
  split_ifs with hc
  · have hbid : 0 < windowBid aov env idx t := by
      have := hc.2
      unfold bidThrottleThreshold at this
      linarith
    calc min (windowPotentialClicks aov env idx t) (rem / windowBid aov env idx t) *
          windowBid aov env idx t
        ≤ rem / windowBid aov env idx t * windowBid aov env idx t :=
          mul_le_mul_of_nonneg_right (min_le_right _ _) hbid.le
      _ = rem := div_mul_cancel₀ _ (ne_of_gt hbid)
  · rw [zero_mul]; exact h

/-- The window loop spends at most the budget it starts with. -/
lemma runSimGo_spend_sum (aov : ℚ) (env : Env) (n : ℕ) :
    ∀ (ts : List ℚ) (idx : ℕ) (rem : ℚ) (flag : Bool), 0 ≤ rem →
      (((runSimGo aov env n ts idx rem flag).1.map WindowResult.totalSpend)).sum ≤
        rem := by
  intro ts
  induction ts with
  | nil => intro idx rem flag h; simpa [runSimGo] using h
  | cons t rest ih =>
    intro idx rem flag hrem
    have hsp := windowSpend_le aov env idx t rem hrem
    have hrem2 : ¬ (rem - windowSpend aov env idx t rem < 0) := by linarith
    have htail := ih (idx + 1) (rem - windowSpend aov env idx t rem)
      (flag || windowFlagHit aov env n idx t rem) (by linarith)
    rw [runSimGo]
    simp only [hrem2, if_false, List.map_cons, List.sum_cons]
    linarith

/-- Sample configuration used by witnesses: both pacing modules on, one day. -/
def sampleParams : MDParams :=
  { slRoi := 10, initialTargetRoi := 15, pacingP := 1/10, pacingI := 1/100,
    pacingD := 1/20, bpP := 0, dailyBudget := 300, numDays := 1,
    initialDeliveredRoi := 12, aov := 300, nValue := 3000, kValue := 600,
    bpKValue := 600, basePCVR := 3/200, calibrationError := 0,
    useRP := true, useBP := true }

/-- Sample environment used by witnesses: constant estimator response and
mid-range random draws. -/
def sampleEnv : Env := ⟨3/200, fun _ => 3/200, fun _ => 1/2, fun _ => 1/2⟩

/-- C1: cumulative daily spend never exceeds the configured daily budget —
every emitted `IntervalResult` of the multi-day simulator has
`dayCumulativeSpend ≤ dailyBudget` (clicks are clamped to
`remainingDailyBudget / bid` before spend is charged), and the single-window
simulator's summary spend across the four windows never exceeds the supplied
budget. -/
theorem c1_daily_budget_never_exceeded (p : MDParams) (env : Env)
    (hb : 0 ≤ p.dailyBudget) (ts : List ℚ) (aov budget : ℚ) (env1 : Env)
    (hb1 : 0 ≤ budget) :
    (∀ r ∈ runMultiDaySimulation p env, r.dayCumulativeSpend ≤ p.dailyBudget) ∧
      (runSimulation ts aov budget env1).summary.totalSpend ≤ budget := by
  constructor
  · intro r hr
    refine runFrom_invariant p env
      (fun s => 0 ≤ s.dayCumulativeSpend ∧ s.dayCumulativeSpend ≤ p.dailyBudget)
      (fun r => r.dayCumulativeSpend ≤ p.dailyBudget) ?_ _ 0 _ ?_ r hr
    · intro i s hs
      have hstep := step_daySpend_bounds p env i s hb hs.1 hs.2
      refine ⟨hstep, ?_⟩
      show (stepInterval p env i s).2.dayCumulativeSpend ≤ p.dailyBudget
      have heq : (stepInterval p env i s).2.dayCumulativeSpend =
          (stepInterval p env i s).1.dayCumulativeSpend := rfl
      rw [heq]
      exact hstep.2
    · exact ⟨le_rfl, hb⟩
  · have heq : (runSimulation ts aov budget env1).summary.totalSpend =
        (((runSimGo aov env1 ts.length ts 0 budget false).1.map
          WindowResult.totalSpend)).sum := rfl
    rw [heq]
    exact runSimGo_spend_sum aov env1 ts.length ts 0 budget false hb1

/-- C1 witness: the budget bound holds on the sample one-day run and on a
concrete four-window run with budget 300. -/
theorem c1_witness :
    (∀ r ∈ runMultiDaySimulation sampleParams sampleEnv,
        r.dayCumulativeSpend ≤ sampleParams.dailyBudget) ∧
      (runSimulation [15, 15, 15, 15] 300 300 sampleEnv).summary.totalSpend ≤ 300 :=
  c1_daily_budget_never_exceeded sampleParams sampleEnv
    (by norm_num [sampleParams]) [15, 15, 15, 15] 300 300 sampleEnv (by norm_num)

/-- C2: after the rolling-window trim of every interval, the total clicks
retained in the rolling history are at most `nValue`, and equal `nValue`
exactly as soon as warm-up plus accumulated interval clicks reach `nValue`
(the straddling entry is scaled so retained clicks sum to the window size). -/
theorem c2_rolling_window_clicks (p : MDParams) (env : Env)
    (hn : 0 ≤ p.nValue) (k : ℕ) :
    histClicks (stateAfter p env (k + 1)).recentHistory ≤ p.nValue ∧
      (p.nValue ≤ histClicks (warmupState p env).recentHistory +
          ∑ j ∈ Finset.range (k + 1), (resultAt p env j).clicks →
        histClicks (stateAfter p env (k + 1)).recentHistory = p.nValue) := by
  have hinv := stateAfter_hist_invariant p env hn (k + 1)
  have hsum : ∑ j ∈ Finset.range (k + 1), (resultAt p env j).clicks =
      ∑ j ∈ Finset.range (k + 1), clicksAt p env j (stateAfter p env j) :=
    Finset.sum_congr rfl (fun j _ => rfl)
  constructor
  · rw [hinv.2]
    exact min_le_left _ _
  · intro hge
    rw [hsum] at hge
    rw [hinv.2]
    exact min_eq_left hge

/-- C2 witness: the window bound holds after the first interval of the sample
run. -/
theorem c2_witness :
    histClicks (stateAfter sampleParams sampleEnv 1).recentHistory ≤
      sampleParams.nValue :=
  (c2_rolling_window_clicks sampleParams sampleEnv
    (by norm_num [sampleParams]) 0).1

/-- C3: the ROI-pacing controller computes a candidate only when clicks since
its last update reach `kValue` (with nonempty history); the candidate is
`currentTarget × (1 + P·error + I·(integral + error) + D·(error − previous))`
with `error = (slRoi − deliveredRoi) / slRoi`, the accumulators are updated,
and the counter resets.  Below `kValue` no candidate exists and an active
ROI-pacing module leaves the target unchanged; the step's applied target
always comes from `appliedTarget`. -/
theorem c3_roi_pacing_update (p : MDParams) (s : MDState) :
    (p.kValue ≤ s.clicksSinceLastRpUpdate → 0 < s.recentHistory.length →
      rpUpdate p s =
        (some (s.currentTargetRoi * (1 +
            (p.pacingP * ((p.slRoi - s.deliveredRoi) / p.slRoi) +
             p.pacingI * (s.integralError + (p.slRoi - s.deliveredRoi) / p.slRoi) +
             p.pacingD * ((p.slRoi - s.deliveredRoi) / p.slRoi - s.previousError)))),
          s.integralError + (p.slRoi - s.deliveredRoi) / p.slRoi,
          (p.slRoi - s.deliveredRoi) / p.slRoi, 0)) ∧
    (s.clicksSinceLastRpUpdate < p.kValue → (rpUpdate p s).1 = none) ∧
    (∀ (env : Env) (i : ℕ),
      (stepInterval p env i s).1.currentTargetRoi = appliedTarget p i s) ∧
    (s.clicksSinceLastRpUpdate < p.kValue → ∀ i : ℕ,
      selectModule p.useRP p.useBP s.deliveredRoi p.slRoi
          (intervalDayBU p i s) (idealBU i) = ActiveModule.RP →
      appliedTarget p i s = s.currentTargetRoi) := by
  refine ⟨?_, ?_, ?_, ?_⟩
  · intro h1 h2
    unfold rpUpdate
    rw [if_pos ⟨h1, h2⟩]
    unfold rpAdjustment rpError
    rfl
  · intro hlt
    unfold rpUpdate
    rw [if_neg]
    rintro ⟨h1, -⟩
    exact absurd h1 (not_le.mpr hlt)
  · intro env i
    rfl
  · intro hlt i hsel
    have hnone : (rpUpdate p s).1 = none := by
      unfold rpUpdate
      rw [if_neg]
      rintro ⟨h1, -⟩
      exact absurd h1 (not_le.mpr hlt)
    unfold appliedTarget
    rw [hsel]
    simp [hnone]

/-- C3 witness: in a state 599 clicks into a 600-click cadence the controller
computes no candidate, and at the cadence boundary it computes exactly the
PID candidate. -/
theorem c3_witness :
    (rpUpdate sampleParams
      { recentHistory := [⟨1, 1, 1, 1⟩], clicksSinceLastRpUpdate := 599,
        clicksSinceLastBpUpdate := 0, currentTargetRoi := 15,
        deliveredRoi := 12, integralError := 0, previousError := 0,
        orderCarryOver := 0, dayCumulativeSpend := 0, dayCumulativeGmv := 0,
        dayCumulativeClicks := 0 }).1 = none :=
  (c3_roi_pacing_update sampleParams _).2.1 (by norm_num [sampleParams])

/-- C4: with both modules enabled, the active module is the pure arbitration
of delivered ROI against the stop-loss and day-budget utilisation against the
ideal curve (RP when `deliveredRoi ≤ slRoi`, else BP when overspending, else
RP); only the active module's candidate is applied to the target; and any
module whose candidate was computed has its clicks-since-update counter reset
(restarting at this interval's clicks), applied or not. -/
theorem c4_module_arbitration (p : MDParams) (env : Env) (i : ℕ) (s : MDState)
    (hrp : p.useRP = true) (hbp : p.useBP = true) :
    (stepInterval p env i s).2.activeModule =
        (if s.deliveredRoi ≤ p.slRoi then ActiveModule.RP
         else if idealBU i < intervalDayBU p i s then ActiveModule.BP
         else ActiveModule.RP) ∧
      (stepInterval p env i s).1.currentTargetRoi = appliedTarget p i s ∧
      ((rpUpdate p s).1.isSome = true →
        (stepInterval p env i s).1.clicksSinceLastRpUpdate =
          (stepInterval p env i s).2.clicks) ∧
      ((bpUpdate p i s).1.isSome = true →
        (stepInterval p env i s).1.clicksSinceLastBpUpdate =
          (stepInterval p env i s).2.clicks) := by
  refine ⟨?_, rfl, ?_, ?_⟩
  · rw [stepResult_activeModule]
    unfold selectModule
    rw [hrp, hbp]
    simp
  · intro hsome
    rw [stepState_rpClicks, stepResult_clicks]
    unfold rpUpdate at hsome ⊢
    split_ifs with h
    · rw [zero_add]
    · rw [if_neg h] at hsome
      simp at hsome
  · intro hsome
    rw [stepState_bpClicks, stepResult_clicks]
    unfold bpUpdate at hsome ⊢
    split_ifs with h
    · rw [zero_add]
    · rw [if_neg h] at hsome
      simp at hsome

/-- C4 witness: arbitration at interval 0 of the sample state (delivered ROI
12 above stop-loss 10, zero utilisation not above the ideal curve) selects
ROI-pacing. -/
theorem c4_witness :
    (stepInterval sampleParams sampleEnv 0 (warmupState sampleParams sampleEnv)).2.activeModule =
      (if (warmupState sampleParams sampleEnv).deliveredRoi ≤ sampleParams.slRoi
       then ActiveModule.RP
       else if idealBU 0 < intervalDayBU sampleParams 0 (warmupState sampleParams sampleEnv)
       then ActiveModule.BP
       else ActiveModule.RP) :=
  (c4_module_arbitration sampleParams sampleEnv 0 (warmupState sampleParams sampleEnv)
    rfl rfl).1

/-- C6: each interval's orders are the floor of `clicks × actual conversion
rate` plus the carried-over fraction, the new carry-over lies in `[0, 1)`,
and over any prefix of the run the floored orders plus the final carry-over
equal the total continuous predicted order count exactly — no conversion
mass is lost or duplicated. -/
theorem c6_order_carry_conservation (p : MDParams) (env : Env) :
    (∀ k, (resultAt p env k).orders =
        ((⌊(resultAt p env k).clicks * actualCVRAt env k +
            (stateAfter p env k).orderCarryOver⌋ : ℤ) : ℚ) ∧
      0 ≤ (stateAfter p env (k + 1)).orderCarryOver ∧
      (stateAfter p env (k + 1)).orderCarryOver < 1) ∧
    (∀ n, (∑ j ∈ Finset.range n, (resultAt p env j).orders) +
        (stateAfter p env n).orderCarryOver =
      ∑ j ∈ Finset.range n, (resultAt p env j).clicks * actualCVRAt env j) := by
  constructor
  · intro k
    exact ⟨rfl, stateAfter_carry_bounds p env (k + 1)⟩
  · intro n
    induction n with
    | zero => simp [stateAfter, warmupState]
    | succ n ih =>
      have hcarry : (stateAfter p env (n + 1)).orderCarryOver =
          (resultAt p env n).clicks * actualCVRAt env n +
            (stateAfter p env n).orderCarryOver - (resultAt p env n).orders := by
        have h1 : (stateAfter p env (n + 1)).orderCarryOver =
            fractionalOrdersAt p env n (stateAfter p env n) -
              ordersAt p env n (stateAfter p env n) := rfl
        rw [h1]
        rfl
      rw [Finset.sum_range_succ, Finset.sum_range_succ, hcarry]
      linarith

/-- C7: whenever the remaining daily budget entering an interval is zero or
negative — in particular at every interval of a run configured with
`dailyBudget = 0` — the interval emits zero clicks, zero spend and zero
revenue (no error and no division by zero arises: every operation is total),
while the pacing/estimation pipeline still runs: the new target ROI is still
the pacing-applied target. -/
theorem c7_budget_exhaustion_safe (p : MDParams) (env : Env) :
    (∀ (i : ℕ) (s : MDState), 0 ≤ s.orderCarryOver → s.orderCarryOver < 1 →
      remainingDailyBudgetAt p i s ≤ 0 →
      (stepInterval p env i s).2.clicks = 0 ∧
        (stepInterval p env i s).2.spend = 0 ∧
        (stepInterval p env i s).2.gmv = 0 ∧
        (stepInterval p env i s).1.currentTargetRoi = appliedTarget p i s) ∧
    (p.dailyBudget = 0 → ∀ k,
      (resultAt p env k).clicks = 0 ∧ (resultAt p env k).spend = 0 ∧
        (resultAt p env k).gmv = 0 ∧
        (stateAfter p env (k + 1)).currentTargetRoi =
          appliedTarget p k (stateAfter p env k)) := by
  have hgen : ∀ (i : ℕ) (s : MDState), 0 ≤ s.orderCarryOver →
      s.orderCarryOver < 1 → remainingDailyBudgetAt p i s ≤ 0 →
      (stepInterval p env i s).2.clicks = 0 ∧
        (stepInterval p env i s).2.spend = 0 ∧
        (stepInterval p env i s).2.gmv = 0 ∧
        (stepInterval p env i s).1.currentTargetRoi = appliedTarget p i s := by
    intro i s hc0 hc1 hrem
    refine ⟨?_, ?_, ?_, rfl⟩
    · rw [stepResult_clicks]
      exact clicksAt_eq_zero_of_no_budget p env i s hrem
    · rw [stepResult_spend]
      exact spendAt_eq_zero_of_no_budget p env i s hrem
    · rw [stepResult_gmv]
      exact gmvAt_eq_zero_of_no_budget p env i s hrem hc0 hc1
  refine ⟨hgen, ?_⟩
  intro hb
  have hday : ∀ k, (stateAfter p env k).dayCumulativeSpend = 0 := by
    intro k
    induction k with
    | zero => rfl
    | succ k ih =>
      have h1 : (stateAfter p env (k + 1)).dayCumulativeSpend =
          intervalDailySpend k (stateAfter p env k) +
            spendAt p env k (stateAfter p env k) := rfl
      have hds : intervalDailySpend k (stateAfter p env k) = 0 := by
        unfold intervalDailySpend
        split_ifs
        · rfl
        · exact ih
      have hrem : remainingDailyBudgetAt p k (stateAfter p env k) ≤ 0 := by
        unfold remainingDailyBudgetAt
        rw [hb, hds]
        norm_num
      rw [h1, hds, spendAt_eq_zero_of_no_budget p env k _ hrem, add_zero]
  intro k
  have hrem : remainingDailyBudgetAt p k (stateAfter p env k) ≤ 0 := by
    unfold remainingDailyBudgetAt
    rw [hb]
    have hds : intervalDailySpend k (stateAfter p env k) = 0 := by
      unfold intervalDailySpend
      split_ifs
      · rfl
      · exact hday k
    rw [hds]
    norm_num
  have hc := stateAfter_carry_bounds p env k
  exact hgen k (stateAfter p env k) hc.1 hc.2 hrem

/-- C7 witness: the zero-budget degenerate run (budget 0, no warm-up) emits
zeros at interval 0 while the target still follows the pacing logic. -/
theorem c7_witness :
    (resultAt { sampleParams with dailyBudget := 0 } sampleEnv 0).clicks = 0 ∧
      (resultAt { sampleParams with dailyBudget := 0 } sampleEnv 0).spend = 0 ∧
      (resultAt { sampleParams with dailyBudget := 0 } sampleEnv 0).gmv = 0 ∧
      (stateAfter { sampleParams with dailyBudget := 0 } sampleEnv 1).currentTargetRoi =
        appliedTarget { sampleParams with dailyBudget := 0 } 0
          (stateAfter { sampleParams with dailyBudget := 0 } sampleEnv 0) :=
  (c7_budget_exhaustion_safe { sampleParams with dailyBudget := 0 } sampleEnv).2
    rfl 0

/-- C8: after every interval, the emitted delivered (rolling) ROI is the
retained rolling window's total revenue over its total spend whenever that
spend is positive, and is held at the previous delivered ROI otherwise (the
zero-spend case takes the hold branch; no division is ever attempted there
and no error is thrown — the embedding is total). -/
theorem c8_delivered_roi (p : MDParams) (env : Env) (k : ℕ) :
    (0 < histSpend (stateAfter p env (k + 1)).recentHistory →
      (resultAt p env k).deliveredROI =
        histGmv (stateAfter p env (k + 1)).recentHistory /
          histSpend (stateAfter p env (k + 1)).recentHistory) ∧
    (¬ 0 < histSpend (stateAfter p env (k + 1)).recentHistory →
      (resultAt p env k).deliveredROI = (stateAfter p env k).deliveredRoi) := by
  have hh : (stateAfter p env (k + 1)).recentHistory =
      histAfter p env k (stateAfter p env k) := rfl
  constructor
  · intro hpos
    rw [hh] at hpos ⊢
    rw [resultAt, stepResult_delivered, if_pos hpos]
  · intro hneg
    rw [hh] at hneg
    rw [resultAt, stepResult_delivered, if_neg hneg]

/-- C8 witness: with no warm-up and zero budget the rolling window stays
empty, its spend is zero, and interval 0 holds the delivered ROI at its prior
value. -/
theorem c8_witness :
    (resultAt { sampleParams with dailyBudget := 0, initialDeliveredRoi := 0 }
        sampleEnv 0).deliveredROI =
      (stateAfter { sampleParams with dailyBudget := 0, initialDeliveredRoi := 0 }
        sampleEnv 0).deliveredRoi := by
  refine (c8_delivered_roi
    { sampleParams with dailyBudget := 0, initialDeliveredRoi := 0 }
    sampleEnv 0).2 ?_
  have hhist : (stateAfter
      { sampleParams with dailyBudget := 0, initialDeliveredRoi := 0 }
      sampleEnv 1).recentHistory = [] := by
    have hclick : clicksAt
        { sampleParams with dailyBudget := 0, initialDeliveredRoi := 0 }
        sampleEnv 0 (stateAfter
          { sampleParams with dailyBudget := 0, initialDeliveredRoi := 0 }
          sampleEnv 0) = 0 := by
      apply clicksAt_eq_zero_of_no_budget
      unfold remainingDailyBudgetAt intervalDailySpend
      norm_num [stateAfter, warmupState]
    have h1 : (stateAfter
        { sampleParams with dailyBudget := 0, initialDeliveredRoi := 0 }
        sampleEnv 1).recentHistory =
        histAfter { sampleParams with dailyBudget := 0, initialDeliveredRoi := 0 }
          sampleEnv 0 (stateAfter
            { sampleParams with dailyBudget := 0, initialDeliveredRoi := 0 }
            sampleEnv 0) := rfl
    rw [h1]
    unfold histAfter
    rw [if_neg (by rw [hclick]; norm_num)]
    have h2 : (stateAfter
        { sampleParams with dailyBudget := 0, initialDeliveredRoi := 0 }
        sampleEnv 0).recentHistory = [] := by
      simp [stateAfter, warmupState]
    rw [h2]
    rfl
  rw [hhist]
  norm_num [histSpend]

/-- Configuration refuting C5: stop-loss 10 with assumed delivered ROI 100
gives PID error −9, so the very first ROI-pacing update multiplies the target
by (1 − 9). -/
def c5Params : MDParams :=
  { slRoi := 10, initialTargetRoi := 15, pacingP := 1, pacingI := 0,
    pacingD := 0, bpP := 0, dailyBudget := 100, numDays := 1,
    initialDeliveredRoi := 100, aov := 300, nValue := 10, kValue := 0,
    bpKValue := 1000000, basePCVR := 3/200, calibrationError := 0,
    useRP := true, useBP := false }

/-- C5 counterexample: a run started with strictly positive initial target
ROI 15 emits target ROI −120 at its very first interval — the ROI-pacing
update `target × (1 + adjustment)` has no positivity clamp and drives the
target negative when the adjustment reaches −9. -/
theorem c5_counterexample :
    0 < c5Params.initialTargetRoi ∧
      (resultAt c5Params sampleEnv 0).targetROI = -120 ∧
      ∃ r ∈ runMultiDaySimulation c5Params sampleEnv, r.targetROI < 0 := by
  have hval : (resultAt c5Params sampleEnv 0).targetROI = -120 := by
    simp [resultAt, stateAfter, stepInterval, appliedTarget, selectModule,
      rpUpdate, rpAdjustment, rpError, warmupState, c5Params, sampleEnv,
      bpUpdate, bpCandidateValue, intervalDayBU, intervalDailySpend, idealBU]
    norm_num
  have hrun : runMultiDaySimulation c5Params sampleEnv =
      (stepInterval c5Params sampleEnv 0 (warmupState c5Params sampleEnv)).2 ::
        runFrom c5Params sampleEnv
          (stepInterval c5Params sampleEnv 0 (warmupState c5Params sampleEnv)).1
          1 47 := by
    rw [runMultiDaySimulation]
    have h48 : c5Params.numDays * 48 = 47 + 1 := by norm_num [c5Params]
    rw [h48, runFrom]
  refine ⟨by norm_num [c5Params], hval, resultAt c5Params sampleEnv 0, ?_, ?_⟩
  · rw [hrun]
    exact List.mem_cons_self _ _
  · rw [hval]
    norm_num

/-- C5 (amended): the current target ROI stays strictly positive throughout a
run started positive, provided every interval's computed ROI-pacing
multiplier `1 + adjustment` is positive and every budget-pacing candidate
`target + bpP·(utilisation error)` is positive — the code contains no clamp,
so positivity holds only under these conditions (the counterexample violates
the first). -/
theorem c5_amended_target_positivity (p : MDParams) (env : Env)
    (h0 : 0 < p.initialTargetRoi)
    (hsafe : ∀ k, 0 < (stateAfter p env k).currentTargetRoi →
      0 < 1 + rpAdjustment p (stateAfter p env k) ∧
      0 < bpCandidateValue p k (stateAfter p env k)) :
    ∀ k, 0 < (stateAfter p env k).currentTargetRoi := by
  intro k
  induction k with
  | zero => exact h0
  | succ k ih =>
    have hs := hsafe k ih
    have h1 : (stateAfter p env (k + 1)).currentTargetRoi =
        appliedTarget p k (stateAfter p env k) := rfl
    rw [h1]
    simp only [appliedTarget]
    split_ifs
    · unfold rpUpdate
      split_ifs
      · simpa using mul_pos ih hs.1
      · simpa using ih
    · unfold bpUpdate
      split_ifs
      · simpa using hs.2
      · simpa using ih
    · exact ih

/-- Configuration for the C5 witness: all gains zero, so every computed
update is the identity and positivity is preserved. -/
def c5SafeParams : MDParams :=
  { slRoi := 10, initialTargetRoi := 15, pacingP := 0, pacingI := 0,
    pacingD := 0, bpP := 0, dailyBudget := 300, numDays := 1,
    initialDeliveredRoi := 12, aov := 300, nValue := 3000, kValue := 600,
    bpKValue := 600, basePCVR := 3/200, calibrationError := 0,
    useRP := true, useBP := true }

/-- C5 witness: with zero gains the safety conditions hold and the target is
still positive three intervals in. -/
theorem c5_witness :
    0 < (stateAfter c5SafeParams sampleEnv 3).currentTargetRoi := by
  refine c5_amended_target_positivity c5SafeParams sampleEnv
    (by norm_num [c5SafeParams]) ?_ 3
  intro k hk
  constructor
  · have : rpAdjustment c5SafeParams (stateAfter c5SafeParams sampleEnv k) = 0 := by
      simp [rpAdjustment, c5SafeParams]
    rw [this]
    norm_num
  · have : bpCandidateValue c5SafeParams k (stateAfter c5SafeParams sampleEnv k) =
        (stateAfter c5SafeParams sampleEnv k).currentTargetRoi := by
      simp [bpCandidateValue, c5SafeParams]
    rw [this]
    exact hk

/-- The window loop emits exactly one record per supplied target. -/
lemma runSimGo_length (aov : ℚ) (env : Env) (n : ℕ) :
    ∀ (ts : List ℚ) (idx : ℕ) (rem : ℚ) (flag : Bool),
      (runSimGo aov env n ts idx rem flag).1.length = ts.length := by
  intro ts
  induction ts with
  | nil => intro idx rem flag; rfl
  | cons t rest ih =>
    intro idx rem flag
    rw [runSimGo]
    simp [ih]

/-- Configuration refuting C9: non-positive AOV, budget, ROI target, window
size and cadence all at once. -/
def c9Params : MDParams :=
  { slRoi := 10, initialTargetRoi := -2, pacingP := 0, pacingI := 0,
    pacingD := 0, bpP := 0, dailyBudget := -3, numDays := 1,
    initialDeliveredRoi := 0, aov := -5, nValue := -1, kValue := -1,
    bpKValue := -1, basePCVR := 3/200, calibrationError := 0,
    useRP := false, useBP := false }

/-- C9 counterexample: a configuration with non-positive AOV, budget, ROI
target, window size N and cadence K is not rejected — the multi-day
simulator starts its loop and emits the full stream of 48 interval results
(there is no validation code and no error channel in the entry points). -/
theorem c9_counterexample :
    c9Params.aov < 0 ∧ c9Params.dailyBudget < 0 ∧
      c9Params.initialTargetRoi < 0 ∧ c9Params.nValue < 0 ∧
      c9Params.kValue < 0 ∧
      (runMultiDaySimulation c9Params sampleEnv).length = 48 ∧
      runMultiDaySimulation c9Params sampleEnv ≠ [] := by
  have hlen : (runMultiDaySimulation c9Params sampleEnv).length = 48 := by
    rw [runMultiDaySimulation, runFrom_length]
    norm_num [c9Params]
  refine ⟨by norm_num [c9Params], by norm_num [c9Params], by norm_num [c9Params],
    by norm_num [c9Params], by norm_num [c9Params], hlen, ?_⟩
  intro hnil
  rw [hnil] at hlen
  simp at hlen

/-- C9 (amended): the core entry points perform no configuration validation
at all — for every configuration, including non-positive AOV, budget, ROI
target, or N/K, the multi-day simulator runs its loop and emits exactly
`numDays × 48` interval results, and the single-window simulator emits one
window record per supplied target; nothing is rejected or clamped before the
loop. -/
theorem c9_amended_no_validation (p : MDParams) (env : Env) (ts : List ℚ)
    (aov budget : ℚ) (env1 : Env) :
    (runMultiDaySimulation p env).length = p.numDays * 48 ∧
      (runSimulation ts aov budget env1).windows.length = ts.length := by
  constructor
  · rw [runMultiDaySimulation, runFrom_length]
  · exact runSimGo_length aov env1 ts.length ts 0 budget false

/-- C10: for every hour 0–23, nonnegative base rate and calibration error in
`[0,1]` (and any `Math.random` draw), the estimator returns through its
success branch with `adjustedPCVR = max(0.0001, computed value)` — a strictly
positive rate — and the catch branch returning the un-floored `basePCVR` is
not taken. -/
theorem c10_estimator_success (targetROI aov : ℝ) (hour : ℕ)
    (basePCVR calibrationError : ℝ) (r : ℝ) (hh : hour ≤ 23)
    (hb : 0 ≤ basePCVR) (hc0 : 0 ≤ calibrationError)
    (hc1 : calibrationError ≤ 1) (hr0 : 0 ≤ r) (hr1 : r ≤ 1) :
    ∃ v, getAdjustedPCVR targetROI aov hour basePCVR calibrationError r =
        PCVRResponse.ok v ∧
      v = max 0.0001 (basePCVR * (1 + Real.log (max 1 (targetROI / 15)) * 0.1) *
          pCVRModifierByHour.getD hour 0 *
          (1 + randomInRange (-calibrationError) calibrationError r)) ∧
      0 < v := by
  have hlen : hour < pCVRModifierByHour.length := by
    have : pCVRModifierByHour.length = 24 := rfl
    omega
  have hget : pCVRModifierByHour.get? hour =
      some (pCVRModifierByHour.get ⟨hour, hlen⟩) := List.get?_eq_get hlen
  have hgetD : pCVRModifierByHour.getD hour 0 =
      pCVRModifierByHour.get ⟨hour, hlen⟩ := by
    rw [List.getD_eq_get? , hget]
    rfl
  refine ⟨max 0.0001 (basePCVR * (1 + Real.log (max 1 (targetROI / 15)) * 0.1) *
      pCVRModifierByHour.get ⟨hour, hlen⟩ *
      (1 + randomInRange (-calibrationError) calibrationError r)), ?_, ?_, ?_⟩
  · unfold getAdjustedPCVR
    rw [hget]
  · rw [hgetD]
  · exact lt_of_lt_of_le (by norm_num) (le_max_left _ _)

/-- C10 witness: the estimator at peak hour 8, base rate 0.015 and zero
calibration error succeeds with a strictly positive floored rate. -/
theorem c10_witness :
    ∃ v, getAdjustedPCVR 15 300 8 0.015 0 (1/2) = PCVRResponse.ok v ∧
      v = max 0.0001 ((0.015 : ℝ) * (1 + Real.log (max 1 ((15 : ℝ) / 15)) * 0.1) *
          pCVRModifierByHour.getD 8 0 * (1 + randomInRange (-0) 0 (1/2))) ∧
      0 < v :=
  c10_estimator_success 15 300 8 0.015 0 (1/2) (by norm_num) (by norm_num)
    (by norm_num) (by norm_num) (by norm_num) (by norm_num)
